import Mathlib

/-!
Verification development for the formconvAI repository.

This file gives a shallow embedding of the artifact-lifecycle pipeline of
`src/formconv/core.py` (`validate_xlsform_file`, `find_and_move_file`,
`create_xlsform`, `convert_xlsx_to_json`, `generate_form_json`) and of the
Flask handler `generate_form` of `src/app.py`, and settles the frozen claims
C1 to C10 about them.

The filesystem is modelled as a finite association of absolute path strings to
entries (regular files carrying their content, directories carrying their
reported size), together with the current working directory, the home
directory, a directory tree rooted at the home directory (the structure walked
by `os.walk`), and an oracle `moveFails` describing which `shutil.move`
invocations fail for environmental reasons (permissions, missing destination
directory, cross-device errors).  Clock reads (`datetime.datetime.now`), the
external agent, and the HTTP conversion endpoint are explicit parameters.
Python exceptions are modelled with `Except`; `try`/`except` blocks of the
source are translated to explicit matches on the `Except` value.
-/

namespace FormConv

/-- Model of a filesystem entry: a regular file with its content, or a
directory with its reported `st_size` (on POSIX a directory reports a
positive size, e.g. 4096). -/
inductive Entry where
  | file (content : String)
  | dir (sz : Nat)
deriving DecidableEq

/-- Look up a path in the entry association list (first match wins). -/
def lookupEntry (entries : List (String × Entry)) (p : String) : Option Entry :=
  match entries.find? (fun e => e.1 == p) with
  | some e => some e.2
  | none => none

/-- Remove all entries at a path. -/
def removeEntry (entries : List (String × Entry)) (p : String) : List (String × Entry) :=
  entries.filter (fun e => !(e.1 == p))

/-- Model of `os.path.join` for the joins performed by the source: appends a
separator unless the first component already ends with one.  (All joins in the
source have a relative second component.) -/
def joinPath (a b : String) : String :=
  if a.data.getLast? = some '/' then a ++ b else a ++ "/" ++ b

/-- Model of `os.path.basename`: the part after the last separator. -/
def basename (p : String) : String :=
  String.mk (((p.data.reverse).takeWhile (fun ch => !(ch == '/'))).reverse)

/-- Model of `os.path.dirname`: everything before the last separator (empty
when there is none). -/
def dirname (p : String) : String :=
  String.mk ((((p.data.reverse).dropWhile (fun ch => !(ch == '/'))).drop 1).reverse)

/-- The path `p` ends with a separator followed by `simple` - the shape of
every candidate path probed by the search in `find_and_move_file`. -/
def probeSuffix (p : String) (simple : String) : Bool :=
  decide (('/' :: simple.data) <:+ p.data)

mutual
/-- A directory in the tree walked by `os.walk`: the file names and the named
subdirectories it contains. -/
inductive DirTree where
  | node (files : List String) (subdirs : DirList)
/-- The list of named subdirectories of a `DirTree` node. -/
inductive DirList where
  | nil
  | cons (dname : String) (tree : DirTree) (rest : DirList)
end

/-- Model of the filesystem and environment state seen by one pipeline run. -/
structure FS where
  entries : List (String × Entry)
  cwd : String
  home : String
  homeTree : DirTree
  moveFails : String → Bool

/-- Model of `os.path.exists`. -/
def osExists (fs : FS) (p : String) : Bool :=
  (lookupEntry fs.entries p).isSome

/-- Model of `os.path.getsize`: raises on a missing path, returns the content
length of a file or the reported size of a directory. -/
def osGetsize (fs : FS) (p : String) : Except String Nat :=
  match lookupEntry fs.entries p with
  | some (.file c) => .ok c.length
  | some (.dir sz) => .ok sz
  | none => .error "No such file or directory"

/-- The filesystem after a successful `shutil.move src dst`: the entry leaves
`src` and appears at `dst` (overwriting what was there). -/
def movedFS (fs : FS) (src dst : String) (e : Entry) : FS :=
  { fs with entries := (dst, e) :: removeEntry fs.entries src }

/-- Model of `shutil.move`: raises when the environment oracle says so or when
the source does not exist; otherwise relocates the entry. -/
def shutilMove (fs : FS) (src dst : String) : Except String FS :=
  if fs.moveFails src then .error "shutil.move failed"
  else
    match lookupEntry fs.entries src with
    | some e => .ok (movedFS fs src dst e)
    | none => .error "No such file or directory"

/-- Model of `open(p, "w").write(content)`: raises when `p` is a directory or
when the parent directory is missing, otherwise creates or truncates the file. -/
def writeFile (fs : FS) (p : String) (content : String) : Except String FS :=
  match lookupEntry fs.entries p with
  | some (.dir _) => .error "IsADirectoryError"
  | _ =>
    match lookupEntry fs.entries (dirname p) with
    | some (.dir _) =>
      .ok { fs with entries := (p, .file content) :: removeEntry fs.entries p }
    | _ => .error "No such file or directory"

/-- Model of Python `str.strip`: drop whitespace from both ends. -/
def pyStrip (s : String) : String :=
  String.mk (((s.data.dropWhile Char.isWhitespace).reverse.dropWhile
    Char.isWhitespace).reverse)

/-- Model of Python `str.startswith`. -/
def strStarts (s pre : String) : Bool :=
  pre.data.isPrefixOf s.data

/-- Observable events of one pipeline run: entering the fallback search of
`find_and_move_file`, and posting to the conversion endpoint. -/
inductive Event where
  | search
  | httpPost
deriving DecidableEq

/-- The fixed fallback directory list of `find_and_move_file` (line 134 of
`src/formconv/core.py`). -/
def searchPaths (fs : FS) : List String :=
  ["/tmp/", "/var/tmp/", fs.home ++ "/Downloads/", fs.home ++ "/Desktop/", fs.cwd]

/-- The loop over the fixed fallback directories (lines 142-153): for each
existing directory, probe for the exact filename and attempt the move; a
failed move is caught and the loop continues. -/
def searchFixed (fs : FS) (simple expected : String) : List String → Option FS
  | [] => none
  | sp :: rest =>
    if osExists fs sp && osExists fs (joinPath sp simple) then
      match shutilMove fs (joinPath sp simple) expected with
      | .ok fs2 => some fs2
      | .error _ => searchFixed fs simple expected rest
    else searchFixed fs simple expected rest

mutual
/-- The bounded `os.walk` search of `find_and_move_file` (lines 155-175): in
top-down walk order, skip (and prune below) any directory more than 3 levels
below the walk root, otherwise attempt to move a directory entry named
`simple`; a failed move is caught and the walk continues. -/
def walkMove (fs : FS) (simple expected : String) (depth : Nat) (path : String) :
    DirTree → Option FS
  | .node fls subs =>
    if 3 < depth then none
    else if fls.contains simple then
      match shutilMove fs (joinPath path simple) expected with
      | .ok fs2 => some fs2
      | .error _ => walkMoveList fs simple expected (depth + 1) path subs
    else walkMoveList fs simple expected (depth + 1) path subs
/-- Walks the subdirectories of a node in order. -/
def walkMoveList (fs : FS) (simple expected : String) (depth : Nat) (path : String) :
    DirList → Option FS
  | .nil => none
  | .cons dname t rest =>
    match walkMove fs simple expected depth (joinPath path dname) t with
    | some fs2 => some fs2
    | none => walkMoveList fs simple expected depth path rest
end

/-- Model of `find_and_move_file` (lines 112-177): check the basename in the
current directory (a failed move here returns `False` at once), then the fixed
fallback directories, then the depth-bounded walk of the home directory. -/
def find_and_move_file (fs : FS) (filename expected : String) : Bool × FS × List Event :=
  let simple := basename filename
  if osExists fs (joinPath fs.cwd simple) then
    match shutilMove fs (joinPath fs.cwd simple) expected with
    | .ok fs2 => (true, fs2, [.search])
    | .error _ => (false, fs, [.search])
  else
    match searchFixed fs simple expected (searchPaths fs) with
    | some fs2 => (true, fs2, [.search])
    | none =>
      match walkMove fs simple expected 0 fs.home fs.homeTree with
      | some fs2 => (true, fs2, [.search])
      | none => (false, fs, [.search])

/-- Model of `validate_xlsform_file` (lines 80-109): verify a non-empty file
at the canonical path, or search for it, relocate it, and re-check its size. -/
def validate_xlsform_file (fs : FS) (filename : String) :
    Except String (Bool × FS × List Event) :=
  let expected := joinPath fs.cwd filename
  if osExists fs expected then
    match osGetsize fs expected with
    | .error e => .error e
    | .ok n => if 0 < n then .ok (true, fs, []) else .ok (false, fs, [])
  else
    match find_and_move_file fs filename expected with
    | (true, fs2, tr) =>
      match osGetsize fs2 expected with
      | .error e => .error e
      | .ok n => if 0 < n then .ok (true, fs2, tr) else .ok (false, fs2, tr)
    | (false, fs2, tr) => .ok (false, fs2, tr)

/-- Result of the external agent invocation (lines 194-232 of
`src/formconv/core.py`): the agent makes arbitrary filesystem effects and
either returns a transcript or raises. -/
inductive AgentResult where
  | ok (fs : FS)
  | raise (fs : FS)

/-- The search loop of `create_xlsform` over common locations (lines 251-263):
unlike `find_and_move_file` it does not test the directory itself for
existence and stops at the first successful move; a failed move is caught and
the loop continues. -/
def createSearch (fs : FS) (simple expected : String) : List String → Option FS
  | [] => none
  | sp :: rest =>
    if osExists fs (joinPath sp simple) then
      match shutilMove fs (joinPath sp simple) expected with
      | .ok fs2 => some fs2
      | .error _ => createSearch fs simple expected rest
    else createSearch fs simple expected rest

/-- Model of `create_xlsform` after the agent run and the settling delay
(lines 234-277): move a file with the expected basename from the current
directory without checking its size, otherwise search the fixed common
locations, and only in that last case re-validate via
`validate_xlsform_file`. -/
def create_xlsform_post (fs : FS) (xlsform_filename : String) :
    Except String (Bool × FS × List Event) :=
  let expected := joinPath fs.cwd xlsform_filename
  let simple := basename xlsform_filename
  if osExists fs (joinPath fs.cwd simple) then
    match shutilMove fs (joinPath fs.cwd simple) expected with
    | .ok fs2 => .ok (true, fs2, [])
    | .error _ => .ok (false, fs, [])
  else
    match createSearch fs simple expected
        ["/tmp/", "/var/tmp/", fs.home ++ "/Downloads/"] with
    | none => .ok (false, fs, [])
    | some fs2 =>
      match validate_xlsform_file fs2 xlsform_filename with
      | .error e => .error e
      | .ok (b, fs3, tr) => if b then .ok (true, fs3, tr) else .ok (false, fs3, tr)

/-- Model of `create_xlsform` (lines 180-281): run the agent, then locate the
artifact; the broad `except` of line 279 maps any exception to `False`. -/
def create_xlsform (fs : FS) (xlsform_filename : String) (agent : FS → AgentResult) :
    Bool × FS × List Event :=
  match agent fs with
  | .raise fs1 => (false, fs1, [])
  | .ok fs1 =>
    match create_xlsform_post fs1 xlsform_filename with
    | .ok r => r
    | .error _ => (false, fs1, [])

/-- An HTTP response from the conversion endpoint. -/
structure Resp where
  status : Nat
  text : String
  headers : String

/-- Outcome of `requests.post` to the conversion endpoint. -/
inductive HttpOutcome where
  | resp (r : Resp)
  | timeout
  | err (msg : String)

/-- The diagnostic text written to `output_files/conversion_error.txt` on a
non-success HTTP status (lines 329-332). -/
def errorReport (status : Nat) (text headers : String) : String :=
  "Status Code: " ++ toString status ++ "\n" ++
  "Response: " ++ text ++ "\n" ++ "Headers: " ++ headers ++ "\n"

/-- Model of `convert_xlsx_to_json` (lines 284-340): re-validate the artifact,
upload it, and on a success status whose body looks like JSON persist the body
verbatim and return it; every raise from `open` onward is caught by the broad
handlers of lines 335-340 and mapped to `None`. -/
def convert_xlsx_to_json (fs : FS) (xlsform_filename json_filename : String)
    (http : HttpOutcome) : Except String (Option String × FS × List Event) :=
  match validate_xlsform_file fs xlsform_filename with
  | .error e => .error e
  | .ok (false, fs1, tr) => .ok (none, fs1, tr)
  | .ok (true, fs1, tr) =>
    let file_path := joinPath fs1.cwd xlsform_filename
    match lookupEntry fs1.entries file_path with
    | some (.file _) =>
      match http with
      | .resp r =>
        if r.status == 200 then
          if strStarts (pyStrip r.text) "\x7b" || strStarts (pyStrip r.text) "[" then
            match writeFile fs1 (joinPath fs1.cwd json_filename) r.text with
            | .ok fs2 => .ok (some r.text, fs2, tr ++ [.httpPost])
            | .error _ => .ok (none, fs1, tr ++ [.httpPost])
          else .ok (none, fs1, tr ++ [.httpPost])
        else
          match writeFile fs1 (joinPath fs1.cwd "output_files/conversion_error.txt")
              (errorReport r.status r.text r.headers) with
          | .ok fs2 => .ok (none, fs2, tr ++ [.httpPost])
          | .error _ => .ok (none, fs1, tr ++ [.httpPost])
      | .timeout => .ok (none, fs1, tr ++ [.httpPost])
      | .err _ => .ok (none, fs1, tr ++ [.httpPost])
    | _ => .ok (none, fs1, tr)

/-- Model of `generate_timestamped_filename` (lines 16-27), with the clock
read passed explicitly. -/
def generate_timestamped_filename (base_name extension timestamp : String) : String :=
  "output_files/" ++ base_name ++ "_" ++ timestamp ++ extension

/-- Model of `ensure_output_directory` (lines 30-39); 4096 is the typical
reported size of a fresh directory. -/
def ensure_output_directory (fs : FS) : FS :=
  if osExists fs (joinPath fs.cwd "output_files") then fs
  else { fs with entries := (joinPath fs.cwd "output_files", .dir 4096) :: fs.entries }

/-- Model of `generate_form_json` (lines 343-378).  The two clock reads of
lines 363 and 364 are the parameters `ts1` and `ts2`; the agent and the
conversion endpoint are oracles.  A raise is an `Except.error`; the final
filesystem and the event list are returned alongside. -/
def generate_form_json (fs0 : FS) (ts1 ts2 : String) (agent : FS → AgentResult)
    (http : HttpOutcome) : Except String String × FS × List Event :=
  let fs1 := ensure_output_directory fs0
  match lookupEntry fs1.entries (joinPath fs1.cwd "xlsform_prompt.txt") with
  | some (.file _) =>
    let xlsform_filename := generate_timestamped_filename "xlsform_survey" ".xlsx" ts1
    let json_filename := generate_timestamped_filename "form_result" ".json" ts2
    match create_xlsform fs1 xlsform_filename agent with
    | (false, fs2, tr) => (.error "Failed to create XLSForm", fs2, tr)
    | (true, fs2, tr) =>
      match convert_xlsx_to_json fs2 xlsform_filename json_filename http with
      | .error e => (.error e, fs2, tr)
      | .ok (some r, fs3, tr2) => (.ok r, fs3, tr ++ tr2)
      | .ok (none, fs3, tr2) => (.error "Form conversion failed", fs3, tr ++ tr2)
  | _ => (.error "No such file or directory: xlsform_prompt.txt", fs1, [])

/-- A parsed JSON value, as produced by `flask.request.get_json`. -/
inductive JsonVal where
  | null
  | jbool (b : Bool)
  | jnum (n : Int)
  | jstr (s : String)
  | jarr (elems : List JsonVal)
  | jobj (fields : List (String × JsonVal))

/-- Modelled from Flask: `request.get_json()` either returns the parsed JSON
document or raises (unparseable body or wrong content type), which the
handler's broad `except` then catches. -/
inductive BodyParse where
  | parsed (j : JsonVal)
  | invalid

/-- Python truthiness of a JSON value (`not data` in line 39 of `src/app.py`). -/
def truthy : JsonVal → Bool
  | .null => false
  | .jbool b => b
  | .jnum n => n != 0
  | .jstr s => !(s == "")
  | .jarr l => !l.isEmpty
  | .jobj l => !l.isEmpty

/-- Python `'query' in data` (line 39 of `src/app.py`): key membership for a
dict, element equality for a list, substring for a string, `TypeError`
otherwise. -/
def queryMem : JsonVal → Except String Bool
  | .jobj l => .ok (l.any (fun kv => kv.1 == "query"))
  | .jarr l => .ok (l.any (fun v => match v with | .jstr s => s == "query" | _ => false))
  | .jstr s => .ok (decide (("query".data) <:+: s.data))
  | _ => .error "TypeError: argument is not iterable"

/-- Python `data['query']` (line 45 of `src/app.py`): dict item access (last
duplicate key wins, as in `json.loads`), `TypeError` for any other value. -/
def itemQuery : JsonVal → Except String JsonVal
  | .jobj l =>
    match l.reverse.find? (fun kv => kv.1 == "query") with
    | some kv => .ok kv.2
    | none => .error "KeyError: query"
  | _ => .error "TypeError: indices must be integers"

/-- The 400 response of lines 40-43 of `src/app.py`, with the flag recording
that the core pipeline was not invoked. -/
def missing_query_response : Nat × JsonVal × Bool :=
  (400, .jobj [("success", .jbool false), ("error", .jstr "Missing query parameter")],
   false)

/-- Model of the Flask handler `generate_form` (lines 20-60 of `src/app.py`).
The core pipeline `generate_form_json` is the oracle `core`; the result is
the HTTP status, the JSON body, and whether the core was invoked.  Any raise
is caught by the handler's broad `except` and mapped to a 500 response. -/
def generate_form (body : BodyParse) (core : JsonVal → Except String String)
    (parseMsg : String) : Nat × JsonVal × Bool :=
  match body with
  | .invalid =>
    (500, .jobj [("success", .jbool false), ("error", .jstr parseMsg)], false)
  | .parsed data =>
    if !(truthy data) then missing_query_response
    else
      match queryMem data with
      | .error e =>
        (500, .jobj [("success", .jbool false), ("error", .jstr e)], false)
      | .ok false => missing_query_response
      | .ok true =>
        match itemQuery data with
        | .error e =>
          (500, .jobj [("success", .jbool false), ("error", .jstr e)], false)
        | .ok q =>
          match core q with
          | .ok result =>
            (200, .jobj [("success", .jbool true), ("data", .jstr result)], true)
          | .error e =>
            (500, .jobj [("success", .jbool false), ("error", .jstr e)], true)

/-- Membership of a named subdirectory in the subdirectory list of a node. -/
def DirList.memD (dname : String) (t : DirTree) : DirList → Prop
  | .nil => False
  | .cons m t2 rest => (m = dname ∧ t2 = t) ∨ DirList.memD dname t rest

/-- The directory reached from `t` by following the named edges in `names`. -/
inductive ReachDir : DirTree → List String → DirTree → Prop where
  | refl (t : DirTree) : ReachDir t [] t
  | step {fls : List String} {subs : DirList} {dname : String} {t2 t3 : DirTree}
      {ns : List String} :
      DirList.memD dname t2 subs → ReachDir t2 ns t3 →
      ReachDir (DirTree.node fls subs) (dname :: ns) t3

mutual
/-- Truncation of a directory tree at a given depth: at the cut a directory is
replaced by an empty one.  Used to state the depth bound of the home search. -/
def truncTree : Nat → DirTree → DirTree
  | 0, _ => .node [] .nil
  | n + 1, .node fls subs => .node fls (truncList n subs)
/-- Truncation of each tree in a subdirectory list. -/
def truncList : Nat → DirList → DirList
  | _, .nil => .nil
  | n, .cons dname t rest => .cons dname (truncTree n t) (truncList n rest)
end

/-- The fallback locations searched by `find_and_move_file`, as a predicate on
the source path `src` of the candidate: the expected basename in the current
working directory, in one of the existing fixed fallback directories, or in a
directory at most 3 levels below the home directory. -/
def CandidateLoc (fs : FS) (simple src : String) : Prop :=
  src = joinPath fs.cwd simple ∨
  (∃ sp, sp ∈ searchPaths fs ∧ osExists fs sp = true ∧ src = joinPath sp simple) ∨
  (∃ names fls3 subs3, ReachDir fs.homeTree names (DirTree.node fls3 subs3) ∧
    names.length ≤ 3 ∧ fls3.contains simple = true ∧
    src = joinPath (names.foldl joinPath fs.home) simple)

/-- Test fixture: a filesystem in which the agent left the artifact on the
desktop and nowhere else. -/
def fsDesk : FS :=
  { entries := [("/root/Desktop/f.xlsx", .file "data"),
                ("/tmp/", .dir 4096), ("/var/tmp/", .dir 4096),
                ("/root/Downloads/", .dir 4096), ("/root/Desktop/", .dir 4096)],
    cwd := "/work", home := "/root",
    homeTree := .node [] .nil,
    moveFails := fun _ => false }

/-- Test fixture: a filesystem whose canonical artifact path holds an empty
file. -/
def fsEmptyCanon : FS :=
  { entries := [("/work/output_files/f.xlsx", .file "")],
    cwd := "/work", home := "/root", homeTree := .node [] .nil,
    moveFails := fun _ => false }

/-- Test fixture: a filesystem with no candidate file anywhere; the home tree
contains a matching name only 4 levels down, beyond the search bound. -/
def fsBare : FS :=
  { entries := [("/tmp/", .dir 4096), ("/var/tmp/", .dir 4096)],
    cwd := "/work", home := "/root",
    homeTree := .node []
      (.cons "a" (.node []
        (.cons "b" (.node []
          (.cons "c" (.node []
            (.cons "d" (.node ["f.xlsx"] .nil) .nil)) .nil)) .nil)) .nil),
    moveFails := fun _ => false }

/-- Test fixture: a filesystem with a valid artifact at the canonical path and
an existing output directory. -/
def fsConv : FS :=
  { entries := [("/work/output_files/f.xlsx", .file "X"),
                ("/work/output_files", .dir 4096)],
    cwd := "/work", home := "/root", homeTree := .node [] .nil,
    moveFails := fun _ => false }

/-- The fixture `fsConv` after the conversion result `[1]` has been persisted. -/
def fsConv2 : FS :=
  { fsConv with entries :=
      ("/work/output_files/r.json", Entry.file "[1]") ::
        removeEntry fsConv.entries "/work/output_files/r.json" }

/-- The fixture `fsConv` after the diagnostic for a status-500 response has
been persisted. -/
def fsConvErr : FS :=
  { fsConv with entries :=
      ("/work/output_files/conversion_error.txt",
        Entry.file (errorReport 500 "<html>error</html>" "H")) ::
        removeEntry fsConv.entries "/work/output_files/conversion_error.txt" }

/-- Test fixture: an initial filesystem for an agent run. -/
def fsC9 : FS :=
  { entries := [], cwd := "/work", home := "/root", homeTree := .node [] .nil,
    moveFails := fun _ => false }

/-- The fixture `fsC9` after an agent run that wrote an empty artifact into
the current working directory. -/
def fsC9A : FS :=
  { fsC9 with entries := [("/work/f.xlsx", Entry.file "")] }

/-- Test fixture: an initial filesystem holding only the prompt template. -/
def fsC6base : FS :=
  { entries := [("/work/xlsform_prompt.txt", .file "P")],
    cwd := "/work", home := "/root", homeTree := .node [] .nil,
    moveFails := fun _ => false }

/-- Test fixture: an initial filesystem for a healthy end-to-end run. -/
def fsC7 : FS :=
  { entries := [("/work/xlsform_prompt.txt", .file "P")],
    cwd := "/work", home := "/root", homeTree := .node [] .nil,
    moveFails := fun _ => false }

/-- A healthy agent oracle: writes the requested artifact, non-empty, into
the current working directory. -/
def c7agent : FS → AgentResult := fun f =>
  .ok { f with entries :=
    ("/work/xlsform_survey_20250101_120000.xlsx", Entry.file "X") :: f.entries }

/-- The filesystem after `c7agent` has run on the prepared `fsC7`. -/
def fsC7A : FS :=
  { ensure_output_directory fsC7 with entries :=
      ("/work/xlsform_survey_20250101_120000.xlsx", Entry.file "X") ::
        (ensure_output_directory fsC7).entries }

/-- The filesystem `fsC7A` after the artifact has been moved to its canonical
path. -/
def c7fsM : FS :=
  movedFS fsC7A "/work/xlsform_survey_20250101_120000.xlsx"
    "/work/output_files/xlsform_survey_20250101_120000.xlsx" (Entry.file "X")

/-- The filesystem `c7fsM` after the conversion result has been persisted. -/
def c7fs2 : FS :=
  { c7fsM with entries :=
      ("/work/output_files/form_result_20250101_120000.json", Entry.file "[1]") ::
        removeEntry c7fsM.entries "/work/output_files/form_result_20250101_120000.json" }

/-! ### Basic lemmas about the filesystem primitives -/

theorem lookupEntry_cons (k : String) (e : Entry) (rest : List (String × Entry))
    (p : String) :
    lookupEntry ((k, e) :: rest) p = if k == p then some e else lookupEntry rest p := by
  by_cases h : k == p <;> simp [lookupEntry, List.find?, h]

theorem lookupEntry_movedFS_dst (fs : FS) (src dst : String) (e : Entry) :
    lookupEntry (movedFS fs src dst e).entries dst = some e := by
  simp [movedFS, lookupEntry_cons]

theorem shutilMove_ok (fs : FS) (src dst : String) (e : Entry)
    (hmf : fs.moveFails src = false) (hl : lookupEntry fs.entries src = some e) :
    shutilMove fs src dst = .ok (movedFS fs src dst e) := by
  simp [shutilMove, hmf, hl]

theorem shutilMove_ok_inv {fs fs2 : FS} {src dst : String}
    (h : shutilMove fs src dst = .ok fs2) :
    ∃ e, lookupEntry fs.entries src = some e ∧ fs2 = movedFS fs src dst e := by
  unfold shutilMove at h
  split at h
  · exact absurd h (by simp)
  · revert h
    cases hl : lookupEntry fs.entries src with
    | none => intro h; exact absurd h (by simp)
    | some e => intro h; exact ⟨e, rfl, by injection h with h2; exact h2.symm⟩

theorem probeSuffix_joinPath (q s : String) : probeSuffix (joinPath q s) s = true := by
  unfold probeSuffix joinPath
  split
  case isTrue h =>
    obtain ⟨l, hl⟩ := List.getLast?_eq_some_iff.1 h
    have : (q ++ s).data = l ++ ('/' :: s.data) := by
      rw [String.data_append, hl, List.append_assoc]
      rfl
    simp only [this, decide_eq_true_eq]
    exact List.suffix_append l ('/' :: s.data)
  case isFalse h =>
    have : (q ++ "/" ++ s).data = q.data ++ ('/' :: s.data) := by
      rw [String.data_append, String.data_append, List.append_assoc]
      rfl
    simp only [this, decide_eq_true_eq]
    exact List.suffix_append q.data ('/' :: s.data)

theorem lookupEntry_probe_none {entries : List (String × Entry)} {src simple p : String}
    (hq : ∀ e ∈ entries, e.1 = src ∨ probeSuffix e.1 simple = false)
    (hp : probeSuffix p simple = true) (hne : p ≠ src) :
    lookupEntry entries p = none := by
  induction entries with
  | nil => rfl
  | cons e rest ih =>
    have hkey : ¬(e.1 = p) := by
      intro hkp
      rcases hq e (List.mem_cons_self e rest) with hsrc | hns
      · exact hne (hkp ▸ hsrc)
      · rw [hkp] at hns; rw [hns] at hp; exact Bool.false_ne_true hp
    obtain ⟨k, v⟩ := e
    rw [lookupEntry_cons]
    simp only [beq_iff_eq]
    rw [if_neg hkey]
    exact ih (fun d hd => hq d (List.mem_cons_of_mem _ hd))

/-! ### Lemmas about the fallback searches -/

theorem lookupEntry_probe_none2 {entries : List (String × Entry)} {simple p : String}
    (hq : ∀ d ∈ entries, probeSuffix d.1 simple = false)
    (hp : probeSuffix p simple = true) :
    lookupEntry entries p = none := by
  induction entries with
  | nil => rfl
  | cons e rest ih =>
    have hkey : ¬(e.1 = p) := by
      intro hkp
      have hns := hq e (List.mem_cons_self e rest)
      rw [hkp] at hns; rw [hns] at hp; exact Bool.false_ne_true hp
    obtain ⟨k, v⟩ := e
    rw [lookupEntry_cons]
    simp only [beq_iff_eq]
    rw [if_neg hkey]
    exact ih (fun d hd => hq d (List.mem_cons_of_mem _ hd))

theorem searchFixed_sound {fs : FS} {simple expected : String} {l : List String}
    {fs2 : FS} (h : searchFixed fs simple expected l = some fs2) :
    ∃ sp, sp ∈ l ∧ shutilMove fs (joinPath sp simple) expected = .ok fs2 := by
  induction l with
  | nil => simp [searchFixed] at h
  | cons sp rest ih =>
    unfold searchFixed at h
    split at h
    · revert h
      cases hm : shutilMove fs (joinPath sp simple) expected with
      | ok f =>
        intro h
        obtain rfl : f = fs2 := Option.some.inj h
        exact ⟨sp, List.mem_cons_self sp rest, hm⟩
      | error m =>
        intro h
        obtain ⟨sp2, hmem, hmv⟩ := ih h
        exact ⟨sp2, List.mem_cons_of_mem _ hmem, hmv⟩
    · obtain ⟨sp2, hmem, hmv⟩ := ih h
      exact ⟨sp2, List.mem_cons_of_mem _ hmem, hmv⟩

theorem searchFixed_finds {fs : FS} {simple expected src : String} {e : Entry}
    {l : List String}
    (hq : ∀ d ∈ fs.entries, d.1 = src ∨ probeSuffix d.1 simple = false)
    (hl : lookupEntry fs.entries src = some e)
    (hmf : fs.moveFails src = false)
    (hsp : ∃ sp, sp ∈ l ∧ osExists fs sp = true ∧ joinPath sp simple = src) :
    searchFixed fs simple expected l = some (movedFS fs src expected e) := by
  induction l with
  | nil => obtain ⟨sp, hmem, _⟩ := hsp; exact absurd hmem (List.not_mem_nil sp)
  | cons sp rest ih =>
    by_cases hhead : osExists fs sp = true ∧ joinPath sp simple = src
    · obtain ⟨hex, hjoin⟩ := hhead
      unfold searchFixed
      rw [hjoin]
      have hexp : osExists fs src = true := by
        unfold osExists; rw [hl]; rfl
      rw [hex, hexp, shutilMove_ok fs src expected e hmf hl]
      simp
    · have htail : ∃ sp2, sp2 ∈ rest ∧ osExists fs sp2 = true ∧ joinPath sp2 simple = src := by
        obtain ⟨sp2, hmem, hex2, hj2⟩ := hsp
        rcases List.mem_cons.1 hmem with rfl | hmem2
        · exact absurd ⟨hex2, hj2⟩ hhead
        · exact ⟨sp2, hmem2, hex2, hj2⟩
      by_cases hjoin : joinPath sp simple = src
      · have hex : osExists fs sp = false := by
          rcases Bool.eq_false_or_eq_true (osExists fs sp) with ht | hf
          · exact absurd ⟨ht, hjoin⟩ hhead
          · exact hf
        unfold searchFixed
        rw [hex]
        simp only [Bool.false_and, if_neg (Bool.false_ne_true)]
        exact ih htail
      · have hprobe : lookupEntry fs.entries (joinPath sp simple) = none :=
          lookupEntry_probe_none hq (probeSuffix_joinPath sp simple) hjoin
        have hex2 : osExists fs (joinPath sp simple) = false := by
          unfold osExists; rw [hprobe]; rfl
        unfold searchFixed
        rw [hex2]
        simp only [Bool.and_false, if_neg (Bool.false_ne_true)]
        exact ih htail

mutual
theorem walkMove_sound {fs : FS} {simple expected : String} {depth : Nat}
    {path : String} {fs2 : FS} :
    ∀ {t : DirTree}, walkMove fs simple expected depth path t = some fs2 →
      ∃ q, shutilMove fs (joinPath q simple) expected = .ok fs2
  | .node fls subs, h => by
    rw [walkMove] at h
    split at h
    · exact absurd h (by simp)
    · split at h
      · revert h
        cases hm : shutilMove fs (joinPath path simple) expected with
        | ok f =>
          intro h
          obtain rfl : f = fs2 := Option.some.inj h
          exact ⟨path, hm⟩
        | error m =>
          intro h
          exact walkMoveList_sound h
      · exact walkMoveList_sound h

theorem walkMoveList_sound {fs : FS} {simple expected : String} {depth : Nat}
    {path : String} {fs2 : FS} :
    ∀ {l : DirList}, walkMoveList fs simple expected depth path l = some fs2 →
      ∃ q, shutilMove fs (joinPath q simple) expected = .ok fs2
  | .nil, h => by rw [walkMoveList] at h; exact absurd h (by simp)
  | .cons dname t rest, h => by
    rw [walkMoveList] at h
    revert h
    cases hw : walkMove fs simple expected depth (joinPath path dname) t with
    | some f =>
      intro h
      obtain rfl : f = fs2 := Option.some.inj h
      exact walkMove_sound hw
    | none =>
      intro h
      exact walkMoveList_sound h
end

theorem walkMoveList_of_mem {fs : FS} {simple expected : String} {depth : Nat}
    {path dname : String} {t2 : DirTree} :
    ∀ {l : DirList}, DirList.memD dname t2 l →
      (∃ fs2, walkMove fs simple expected depth (joinPath path dname) t2 = some fs2) →
      ∃ fs2, walkMoveList fs simple expected depth path l = some fs2
  | .nil, hm, _ => absurd hm (by simp [DirList.memD])
  | .cons m t rest, hm, hsub => by
    rw [walkMoveList]
    cases hw : walkMove fs simple expected depth (joinPath path m) t with
    | some f => exact ⟨f, rfl⟩
    | none =>
      rcases hm with ⟨rfl, rfl⟩ | hm2
      · obtain ⟨fs2, hfs2⟩ := hsub
        rw [hw] at hfs2
        exact absurd hfs2 (by simp)
      · exact walkMoveList_of_mem hm2 hsub

theorem walkMove_reaches {fs : FS} {simple expected : String} :
    ∀ {t t3 : DirTree} {names : List String}, ReachDir t names t3 →
      ∀ (depth : Nat) (path : String), depth + names.length ≤ 3 →
      (match t3 with | .node fls3 _ => fls3.contains simple) = true →
      (∃ f, shutilMove fs (joinPath (names.foldl joinPath path) simple) expected = .ok f) →
      ∃ fs2, walkMove fs simple expected depth path t = some fs2 := by
  intro t t3 names hr
  induction hr with
  | refl t =>
    intro depth path hdep hfls hok
    cases t with
    | node fls subs =>
      rw [walkMove]
      rw [if_neg (by omega)]
      simp only at hfls
      rw [hfls]
      obtain ⟨f, hf⟩ := hok
      simp only [List.foldl] at hf
      rw [if_pos rfl, hf]
      exact ⟨f, rfl⟩
  | @step fls subs dname t2 t3x ns hmem hr2 ih =>
    intro depth path hdep hfls hok
    rw [walkMove]
    rw [if_neg (by simp at hdep ⊢; omega)]
    have hsub : ∃ fs2, walkMove fs simple expected (depth + 1)
        (joinPath path dname) t2 = some fs2 := by
      apply ih
      · simp at hdep ⊢; omega
      · exact hfls
      · exact hok
    have hlist := walkMoveList_of_mem hmem hsub
    split
    · cases hm : shutilMove fs (joinPath path simple) expected with
      | ok f => exact ⟨f, rfl⟩
      | error m => exact hlist
    · exact hlist

mutual
theorem walkMove_trunc (fs : FS) (simple expected : String) (depth : Nat)
    (path : String) :
    ∀ t : DirTree, depth ≤ 4 →
      walkMove fs simple expected depth path (truncTree (4 - depth) t) =
        walkMove fs simple expected depth path t
  | .node fls subs, hd => by
    by_cases hgt : 3 < depth
    · have h4 : depth = 4 := by omega
      subst h4
      rw [show (4 - 4 : Nat) = 0 from rfl, truncTree]
      rw [walkMove, walkMove]
      rfl
    · have hsucc : 4 - depth = (4 - (depth + 1)) + 1 := by omega
      rw [hsucc, truncTree]
      rw [walkMove, walkMove]
      rw [if_neg hgt, if_neg hgt]
      rw [walkMoveList_trunc fs simple expected (depth + 1) path subs (by omega)]

theorem walkMoveList_trunc (fs : FS) (simple expected : String) (depth : Nat)
    (path : String) :
    ∀ l : DirList, depth ≤ 4 →
      walkMoveList fs simple expected depth path (truncList (4 - depth) l) =
        walkMoveList fs simple expected depth path l
  | .nil, _ => by rw [truncList]
  | .cons dname t rest, hd => by
    rw [truncList]
    rw [walkMoveList, walkMoveList]
    rw [walkMove_trunc fs simple expected depth (joinPath path dname) t hd]
    rw [walkMoveList_trunc fs simple expected depth path rest hd]
end

/-- If the only entry whose path has the probe shape for `simple` is `src`,
a non-failing move of `src`, and `src` is one of the searched candidate
locations, then `find_and_move_file` succeeds and performs exactly that move. -/
theorem find_and_move_file_finds {fs : FS} {filename simple expected src : String}
    {e : Entry}
    (hsimple : basename filename = simple)
    (hq : ∀ d ∈ fs.entries, d.1 = src ∨ probeSuffix d.1 simple = false)
    (hl : lookupEntry fs.entries src = some e)
    (hmf : fs.moveFails src = false)
    (hloc : CandidateLoc fs simple src) :
    find_and_move_file fs filename expected =
      (true, movedFS fs src expected e, [.search]) := by
  have hsrc_exists : osExists fs src = true := by
    unfold osExists; rw [hl]; rfl
  unfold find_and_move_file
  rw [hsimple]
  simp only []
  by_cases hcwd : osExists fs (joinPath fs.cwd simple) = true
  · have hjc : joinPath fs.cwd simple = src := by
      by_contra hne
      have hnone := lookupEntry_probe_none hq (probeSuffix_joinPath fs.cwd simple) hne
      unfold osExists at hcwd
      rw [hnone] at hcwd
      exact Bool.false_ne_true hcwd
    rw [hcwd, if_pos rfl, hjc, shutilMove_ok fs src expected e hmf hl]
  · rw [Bool.eq_false_iff.2 hcwd, if_neg Bool.false_ne_true]
    cases hsf : searchFixed fs simple expected (searchPaths fs) with
    | some fs2 =>
      obtain ⟨sp, _, hmv⟩ := searchFixed_sound hsf
      obtain ⟨e2, hl2, rfl⟩ := shutilMove_ok_inv hmv
      have hjs : joinPath sp simple = src := by
        by_contra hne
        rw [lookupEntry_probe_none hq (probeSuffix_joinPath sp simple) hne] at hl2
        cases hl2
      rw [hjs] at hl2
      rw [hl] at hl2
      obtain rfl : e = e2 := Option.some.inj hl2
      rw [hjs]
    | none =>
      rcases hloc with h1 | h2 | h3
      · exfalso
        rw [h1] at hsrc_exists
        exact hcwd hsrc_exists
      · exfalso
        obtain ⟨sp, hmem, hex, hj⟩ := h2
        have := @searchFixed_finds fs simple expected src e (searchPaths fs)
          hq hl hmf ⟨sp, hmem, hex, hj.symm⟩
        rw [this] at hsf
        cases hsf
      · obtain ⟨names, fls3, subs3, hr, hlen, hcont, hsrc⟩ := h3
        have hok : ∃ f, shutilMove fs
            (joinPath (names.foldl joinPath fs.home) simple) expected = .ok f := by
          rw [← hsrc]
          exact ⟨_, shutilMove_ok fs src expected e hmf hl⟩
        obtain ⟨fs2, hwm⟩ :=
          walkMove_reaches hr 0 fs.home (by omega) (by exact hcont) hok
        rw [hwm]
        obtain ⟨q, hmv⟩ := walkMove_sound hwm
        obtain ⟨e2, hl2, rfl⟩ := shutilMove_ok_inv hmv
        have hjq : joinPath q simple = src := by
          by_contra hne
          rw [lookupEntry_probe_none hq (probeSuffix_joinPath q simple) hne] at hl2
          cases hl2
        rw [hjq] at hl2
        rw [hl] at hl2
        obtain rfl : e = e2 := Option.some.inj hl2
        rw [hjq]

/-- C1: for every expected basename, if a non-empty file with that basename
is the unique basename-candidate on the filesystem and it sits in one of the
fallback search locations (current working directory, fixed fallback
directories, or the depth-bounded home-directory search), and the canonical
path is not yet occupied, then `validate_xlsform_file` relocates that file to
the canonical path and reports success, regardless of which candidate
location held it. -/
theorem C1_resolve_relocates (fs : FS) (filename simple src c : String)
    (hsimple : basename filename = simple)
    (hexp : lookupEntry fs.entries (joinPath fs.cwd filename) = none)
    (hl : lookupEntry fs.entries src = some (.file c))
    (hc : 0 < c.length)
    (hmf : fs.moveFails src = false)
    (hq : ∀ d ∈ fs.entries, d.1 = src ∨ probeSuffix d.1 simple = false)
    (hloc : CandidateLoc fs simple src) :
    validate_xlsform_file fs filename =
      .ok (true, movedFS fs src (joinPath fs.cwd filename) (.file c), [.search]) ∧
    lookupEntry (movedFS fs src (joinPath fs.cwd filename) (.file c)).entries
      (joinPath fs.cwd filename) = some (.file c) := by
  constructor
  · unfold validate_xlsform_file
    simp only []
    have hex0 : osExists fs (joinPath fs.cwd filename) = false := by
      unfold osExists; rw [hexp]; rfl
    rw [hex0, if_neg Bool.false_ne_true]
    rw [find_and_move_file_finds hsimple hq hl hmf hloc]
    simp only [osGetsize, lookupEntry_movedFS_dst]
    rw [if_pos hc]
  · exact lookupEntry_movedFS_dst fs src (joinPath fs.cwd filename) (.file c)

/-- Witness for C1 at a concrete filesystem: the artifact sits on the desktop
and the resolve operation relocates it to the canonical path. -/
theorem C1_resolve_relocates_witness :
    validate_xlsform_file fsDesk "output_files/f.xlsx" =
      .ok (true, movedFS fsDesk "/root/Desktop/f.xlsx"
        (joinPath fsDesk.cwd "output_files/f.xlsx") (.file "data"), [.search]) ∧
    lookupEntry (movedFS fsDesk "/root/Desktop/f.xlsx"
        (joinPath fsDesk.cwd "output_files/f.xlsx") (.file "data")).entries
      (joinPath fsDesk.cwd "output_files/f.xlsx") = some (.file "data") :=
  C1_resolve_relocates fsDesk "output_files/f.xlsx" "f.xlsx" "/root/Desktop/f.xlsx"
    "data" (by decide) (by decide) (by decide) (by decide) rfl (by decide)
    (Or.inr (Or.inl ⟨"/root/Desktop/", by decide, by decide, by decide⟩))

/-- When no entry on the filesystem has the probe shape for the expected
basename, the fallback search fails and leaves the filesystem unchanged. -/
theorem find_and_move_file_missing {fs : FS} {filename expected : String}
    (hnone : ∀ d ∈ fs.entries, probeSuffix d.1 (basename filename) = false) :
    find_and_move_file fs filename expected = (false, fs, [.search]) := by
  have hprobe : ∀ q, lookupEntry fs.entries (joinPath q (basename filename)) = none :=
    fun q => lookupEntry_probe_none2 hnone (probeSuffix_joinPath q (basename filename))
  unfold find_and_move_file
  simp only []
  have hcwd : osExists fs (joinPath fs.cwd (basename filename)) = false := by
    unfold osExists; rw [hprobe]; rfl
  rw [hcwd, if_neg Bool.false_ne_true]
  have hsf : searchFixed fs (basename filename) expected (searchPaths fs) = none := by
    cases hs : searchFixed fs (basename filename) expected (searchPaths fs) with
    | none => rfl
    | some f2 =>
      obtain ⟨sp, _, hmv⟩ := searchFixed_sound hs
      obtain ⟨e, hl2, _⟩ := shutilMove_ok_inv hmv
      rw [hprobe] at hl2
      cases hl2
  rw [hsf]
  have hwm : walkMove fs (basename filename) expected 0 fs.home fs.homeTree = none := by
    cases hw : walkMove fs (basename filename) expected 0 fs.home fs.homeTree with
    | none => rfl
    | some f2 =>
      obtain ⟨q, hmv⟩ := walkMove_sound hw
      obtain ⟨e, hl2, _⟩ := shutilMove_ok_inv hmv
      rw [hprobe] at hl2
      cases hl2
  rw [hwm]

/-- When the fallback search reports success, the moved entry is present at
the destination path. -/
theorem find_and_move_file_true_lookup {fs : FS} {filename expected : String}
    {fs2 : FS} {tr : List Event}
    (h : find_and_move_file fs filename expected = (true, fs2, tr)) :
    ∃ e, lookupEntry fs2.entries expected = some e := by
  unfold find_and_move_file at h
  simp only [] at h
  by_cases hcwd : osExists fs (joinPath fs.cwd (basename filename)) = true
  · rw [hcwd, if_pos rfl] at h
    revert h
    cases hm : shutilMove fs (joinPath fs.cwd (basename filename)) expected with
    | ok f =>
      intro h
      injection h with h1 h2
      injection h2 with h3 h4
      obtain ⟨e, _, rfl⟩ := shutilMove_ok_inv hm
      exact h3 ▸ ⟨e, lookupEntry_movedFS_dst fs _ expected e⟩
    | error m =>
      intro h
      injection h with h1 h2
      cases h1
  · rw [Bool.eq_false_iff.2 hcwd, if_neg Bool.false_ne_true] at h
    revert h
    cases hsf : searchFixed fs (basename filename) expected (searchPaths fs) with
    | some f =>
      intro h
      injection h with h1 h2
      injection h2 with h3 h4
      obtain ⟨sp, _, hmv⟩ := searchFixed_sound hsf
      obtain ⟨e, _, rfl⟩ := shutilMove_ok_inv hmv
      exact h3 ▸ ⟨e, lookupEntry_movedFS_dst fs _ expected e⟩
    | none =>
      intro h
      revert h
      cases hwm : walkMove fs (basename filename) expected 0 fs.home fs.homeTree with
      | some f =>
        intro h
        injection h with h1 h2
        injection h2 with h3 h4
        obtain ⟨q, hmv⟩ := walkMove_sound hwm
        obtain ⟨e, _, rfl⟩ := shutilMove_ok_inv hmv
        exact h3 ▸ ⟨e, lookupEntry_movedFS_dst fs _ expected e⟩
      | none =>
        intro h
        injection h with h1 h2
        cases h1

/-- C4: an empty file at the canonical path short-circuits the resolve
operation: `validate_xlsform_file` reports failure, the filesystem is
unchanged (no move happens), and the empty event trace shows that the
fallback search is never entered. -/
theorem C4_empty_short_circuit (fs : FS) (filename : String)
    (h : lookupEntry fs.entries (joinPath fs.cwd filename) = some (.file "")) :
    validate_xlsform_file fs filename = .ok (false, fs, []) := by
  unfold validate_xlsform_file
  simp only []
  have hex : osExists fs (joinPath fs.cwd filename) = true := by
    unfold osExists; rw [h]; rfl
  rw [hex, if_pos rfl]
  simp [osGetsize, h]

/-- Witness for C4: an empty file at the canonical path on a concrete
filesystem. -/
theorem C4_empty_short_circuit_witness :
    validate_xlsform_file fsEmptyCanon "output_files/f.xlsx" =
      .ok (false, fsEmptyCanon, []) :=
  C4_empty_short_circuit fsEmptyCanon "output_files/f.xlsx" (by decide)

/-- C5: when no file with the expected basename exists at the canonical path
or anywhere on the filesystem, the resolve operation reports failure after the
fallback search without changing the filesystem; moreover the home-directory
walk is depth-bounded: its result never depends on anything below 4 levels
under the walk root (directories more than 3 levels below the root are never
searched), as truncating the tree there leaves the search unchanged. -/
theorem C5_missing_bounded (fs : FS) (filename : String)
    (hexp : lookupEntry fs.entries (joinPath fs.cwd filename) = none)
    (hnone : ∀ d ∈ fs.entries, probeSuffix d.1 (basename filename) = false) :
    validate_xlsform_file fs filename = .ok (false, fs, [.search]) ∧
    ∀ (fsx : FS) (s e p : String) (t : DirTree),
      walkMove fsx s e 0 p (truncTree 4 t) = walkMove fsx s e 0 p t := by
  constructor
  · unfold validate_xlsform_file
    simp only []
    have hex : osExists fs (joinPath fs.cwd filename) = false := by
      unfold osExists; rw [hexp]; rfl
    rw [hex, if_neg Bool.false_ne_true]
    rw [find_and_move_file_missing hnone]
  · intro fsx s e p t
    exact walkMove_trunc fsx s e 0 p t (by omega)

/-- Witness for C5: a concrete filesystem with no candidate anywhere; the
home tree holds a matching name only below the depth bound. -/
theorem C5_missing_bounded_witness :
    validate_xlsform_file fsBare "output_files/f.xlsx" =
      .ok (false, fsBare, [.search]) ∧
    ∀ (fsx : FS) (s e p : String) (t : DirTree),
      walkMove fsx s e 0 p (truncTree 4 t) = walkMove fsx s e 0 p t :=
  C5_missing_bounded fsBare "output_files/f.xlsx" (by decide) (by decide)

/-- C8: the resolve operation never raises: for every filesystem state and
every filename, `validate_xlsform_file` returns a value; every failure is
encoded in the returned boolean. -/
theorem C8_resolve_never_raises (fs : FS) (filename : String) :
    ∃ out, validate_xlsform_file fs filename = .ok out := by
  unfold validate_xlsform_file
  simp only []
  cases hlk : lookupEntry fs.entries (joinPath fs.cwd filename) with
  | some e =>
    have hex : osExists fs (joinPath fs.cwd filename) = true := by
      unfold osExists; rw [hlk]; rfl
    rw [hex, if_pos rfl]
    cases e with
    | file c =>
      simp only [osGetsize, hlk]
      split
      · exact ⟨_, rfl⟩
      · exact ⟨_, rfl⟩
    | dir sz =>
      simp only [osGetsize, hlk]
      split
      · exact ⟨_, rfl⟩
      · exact ⟨_, rfl⟩
  | none =>
    have hex : osExists fs (joinPath fs.cwd filename) = false := by
      unfold osExists; rw [hlk]; rfl
    rw [hex, if_neg Bool.false_ne_true]
    cases hfm : find_and_move_file fs filename (joinPath fs.cwd filename) with
    | mk b rest =>
      cases rest with
      | mk fs2 tr =>
        cases b with
        | true =>
          obtain ⟨e, he⟩ := find_and_move_file_true_lookup hfm
          cases e with
          | file c =>
            simp only [osGetsize, he]
            split
            · exact ⟨_, rfl⟩
            · exact ⟨_, rfl⟩
          | dir sz =>
            simp only [osGetsize, he]
            split
            · exact ⟨_, rfl⟩
            · exact ⟨_, rfl⟩
        | false => exact ⟨_, rfl⟩

/-- A non-empty file at the canonical path validates in place: no move, no
search, no filesystem change. -/
theorem validate_ok_of_canonical {fs : FS} {filename c : String}
    (h : lookupEntry fs.entries (joinPath fs.cwd filename) = some (.file c))
    (hc : 0 < c.length) :
    validate_xlsform_file fs filename = .ok (true, fs, []) := by
  unfold validate_xlsform_file
  simp only []
  have hex : osExists fs (joinPath fs.cwd filename) = true := by
    unfold osExists; rw [h]; rfl
  rw [hex, if_pos rfl]
  simp only [osGetsize, h]
  rw [if_pos hc]

/-- A successful write produces exactly the expected entry list and preserves
the rest of the state. -/
theorem writeFile_ok_inv {fs fs2 : FS} {p content : String}
    (h : writeFile fs p content = .ok fs2) :
    fs2 = { fs with entries := (p, .file content) :: removeEntry fs.entries p } := by
  unfold writeFile at h
  split at h
  · exact absurd h (by simp)
  · split at h
    · exact (Except.ok.inj h).symm
    · exact absurd h (by simp)

theorem lookupEntry_removeEntry_ne {entries : List (String × Entry)} {p q : String}
    (h : ¬(q = p)) :
    lookupEntry (removeEntry entries p) q = lookupEntry entries q := by
  induction entries with
  | nil => rfl
  | cons e rest ih =>
    obtain ⟨k, v⟩ := e
    by_cases hk : k = p
    · subst hk
      have : removeEntry ((k, v) :: rest) k = removeEntry rest k := by
        simp [removeEntry]
      rw [this, ih, lookupEntry_cons]
      simp only [beq_iff_eq]
      rw [if_neg (fun hkq => h hkq.symm)]
    · have : removeEntry ((k, v) :: rest) p = (k, v) :: removeEntry rest p := by
        simp [removeEntry, hk]
      rw [this, lookupEntry_cons, lookupEntry_cons, ih]

/-- The computation of the success path of `convert_xlsx_to_json`: a valid
artifact, a 200 status, a JSON-looking body, and a successful write yield the
body as the result. -/
theorem convert_ok_of_valid {fs fs2 : FS} {xlsf jsonf c body hdrs : String}
    (hcanon : lookupEntry fs.entries (joinPath fs.cwd xlsf) = some (.file c))
    (hc : 0 < c.length)
    (hbody : strStarts (pyStrip body) "\x7b" = true ∨ strStarts (pyStrip body) "[" = true)
    (hw : writeFile fs (joinPath fs.cwd jsonf) body = .ok fs2) :
    convert_xlsx_to_json fs xlsf jsonf (.resp ⟨200, body, hdrs⟩) =
      .ok (some body, fs2, [.httpPost]) := by
  unfold convert_xlsx_to_json
  rw [validate_ok_of_canonical hcanon hc]
  simp only []
  rw [hcanon]
  have hcond : (strStarts (pyStrip body) "\x7b" || strStarts (pyStrip body) "[") = true := by
    rcases hbody with hb | hb <;> simp [hb]
  simp only [hcond]
  rw [hw]
  rfl

/-- C2: for a conversion response with status 200 whose body, after stripping
whitespace, begins with an opening brace or bracket, `convert_xlsx_to_json`
persists exactly the response body to the result file and returns exactly that
same text: the returned payload, the persisted content, and the response body
coincide byte for byte. -/
theorem C2_conversion_passthrough (fs fs2 : FS) (xlsf jsonf c body hdrs : String)
    (hcanon : lookupEntry fs.entries (joinPath fs.cwd xlsf) = some (.file c))
    (hc : 0 < c.length)
    (hbody : strStarts (pyStrip body) "\x7b" = true ∨ strStarts (pyStrip body) "[" = true)
    (hw : writeFile fs (joinPath fs.cwd jsonf) body = .ok fs2) :
    convert_xlsx_to_json fs xlsf jsonf (.resp ⟨200, body, hdrs⟩) =
      .ok (some body, fs2, [.httpPost]) ∧
    lookupEntry fs2.entries (joinPath fs.cwd jsonf) = some (.file body) := by
  constructor
  · exact convert_ok_of_valid hcanon hc hbody hw
  · rw [writeFile_ok_inv hw]
    rw [lookupEntry_cons]
    simp

/-- Witness for C2: the body of a concrete 200 response (a JSON array) is
returned and persisted unchanged. -/
theorem C2_conversion_passthrough_witness :
    convert_xlsx_to_json fsConv "output_files/f.xlsx" "output_files/r.json"
        (.resp ⟨200, "[1]", "H"⟩) =
      .ok (some "[1]", fsConv2, [.httpPost]) ∧
    lookupEntry fsConv2.entries (joinPath fsConv.cwd "output_files/r.json") =
      some (.file "[1]") :=
  C2_conversion_passthrough fsConv fsConv2 "output_files/f.xlsx" "output_files/r.json"
    "X" "[1]" "H" (by decide) (by decide) (Or.inr (by decide)) rfl

/-- Counterexample to C3: a status-200 response with body
`<html>error</html>` is a failure, but no diagnostic file is written - the
filesystem is returned unchanged and `output_files/conversion_error.txt` does
not exist afterwards, contradicting the claim that every failure path writes
the diagnostic file. -/
theorem C3_counterexample :
    convert_xlsx_to_json fsConv "output_files/f.xlsx" "output_files/r.json"
        (.resp ⟨200, "<html>error</html>", "H"⟩) =
      .ok (none, fsConv, [.httpPost]) ∧
    lookupEntry fsConv.entries
      (joinPath fsConv.cwd "output_files/conversion_error.txt") = none := by
  constructor
  · rfl
  · decide

/-- C3 amended: every failure path of the conversion step (non-success
status, success status with a body not beginning with a brace or bracket,
timeout, transport error) returns a null outcome; the diagnostic file
capturing status code, body, and headers is written on the non-success-status
path only - for a status-200 response with a non-JSON body (such as
`<html>error</html>`), for timeouts, and for transport errors the failure is
reported without writing any diagnostic file. -/
theorem C3_failure_paths (fs fs2 : FS) (xlsf jsonf c body hdrs m : String) (st : Nat)
    (hcanon : lookupEntry fs.entries (joinPath fs.cwd xlsf) = some (.file c))
    (hc : 0 < c.length)
    (hbody1 : strStarts (pyStrip body) "\x7b" = false)
    (hbody2 : strStarts (pyStrip body) "[" = false)
    (hst : (st == 200) = false)
    (hw : writeFile fs (joinPath fs.cwd "output_files/conversion_error.txt")
        (errorReport st body hdrs) = .ok fs2) :
    convert_xlsx_to_json fs xlsf jsonf .timeout = .ok (none, fs, [.httpPost]) ∧
    convert_xlsx_to_json fs xlsf jsonf (.err m) = .ok (none, fs, [.httpPost]) ∧
    convert_xlsx_to_json fs xlsf jsonf (.resp ⟨200, body, hdrs⟩) =
      .ok (none, fs, [.httpPost]) ∧
    convert_xlsx_to_json fs xlsf jsonf (.resp ⟨st, body, hdrs⟩) =
      .ok (none, fs2, [.httpPost]) ∧
    lookupEntry fs2.entries
      (joinPath fs.cwd "output_files/conversion_error.txt") =
        some (.file (errorReport st body hdrs)) := by
  have hval := validate_ok_of_canonical hcanon hc
  refine ⟨?_, ?_, ?_, ?_, ?_⟩
  · unfold convert_xlsx_to_json
    rw [hval]
    simp only []
    rw [hcanon]
    rfl
  · unfold convert_xlsx_to_json
    rw [hval]
    simp only []
    rw [hcanon]
    rfl
  · unfold convert_xlsx_to_json
    rw [hval]
    simp only []
    rw [hcanon]
    simp only [hbody1, hbody2, Bool.or_self]
    rfl
  · unfold convert_xlsx_to_json
    rw [hval]
    simp only []
    rw [hcanon]
    simp only [hst]
    rw [hw]
    rfl
  · rw [writeFile_ok_inv hw]
    rw [lookupEntry_cons]
    simp

/-- Witness for the amended C3 at concrete inputs: timeout, transport error,
status 200 with an HTML body, and status 500 with the diagnostic written. -/
theorem C3_failure_paths_witness :
    convert_xlsx_to_json fsConv "output_files/f.xlsx" "output_files/r.json"
        .timeout = .ok (none, fsConv, [.httpPost]) ∧
    convert_xlsx_to_json fsConv "output_files/f.xlsx" "output_files/r.json"
        (.err "boom") = .ok (none, fsConv, [.httpPost]) ∧
    convert_xlsx_to_json fsConv "output_files/f.xlsx" "output_files/r.json"
        (.resp ⟨200, "<html>error</html>", "H"⟩) =
      .ok (none, fsConv, [.httpPost]) ∧
    convert_xlsx_to_json fsConv "output_files/f.xlsx" "output_files/r.json"
        (.resp ⟨500, "<html>error</html>", "H"⟩) =
      .ok (none, fsConvErr, [.httpPost]) ∧
    lookupEntry fsConvErr.entries
      (joinPath fsConv.cwd "output_files/conversion_error.txt") =
        some (.file (errorReport 500 "<html>error</html>" "H")) :=
  C3_failure_paths fsConv fsConvErr "output_files/f.xlsx" "output_files/r.json"
    "X" "<html>error</html>" "H" "boom" 500
    (by decide) (by decide) (by decide) (by decide) (by decide) rfl

/-- C9: after the settling delay, `create_xlsform` moves a file with the
expected basename from the current working directory to the canonical path
and reports success without checking its size, so an empty artifact passes
the agent and location stage; the emptiness is only detected later by the
re-validation inside `convert_xlsx_to_json`, which then fails without any
network post (no `httpPost` event). -/
theorem C9_empty_artifact_passes (fs0 fsA : FS) (xlsf jsonf : String)
    (agent : FS → AgentResult) (http : HttpOutcome)
    (hagent : agent fs0 = .ok fsA)
    (hcwdfile : lookupEntry fsA.entries (joinPath fsA.cwd (basename xlsf)) =
      some (.file ""))
    (hmf : fsA.moveFails (joinPath fsA.cwd (basename xlsf)) = false) :
    create_xlsform fs0 xlsf agent =
      (true, movedFS fsA (joinPath fsA.cwd (basename xlsf))
        (joinPath fsA.cwd xlsf) (.file ""), []) ∧
    convert_xlsx_to_json
        (movedFS fsA (joinPath fsA.cwd (basename xlsf))
          (joinPath fsA.cwd xlsf) (.file "")) xlsf jsonf http =
      .ok (none, movedFS fsA (joinPath fsA.cwd (basename xlsf))
        (joinPath fsA.cwd xlsf) (.file ""), []) := by
  have hexA : osExists fsA (joinPath fsA.cwd (basename xlsf)) = true := by
    unfold osExists; rw [hcwdfile]; rfl
  constructor
  · unfold create_xlsform
    rw [hagent]
    unfold create_xlsform_post
    simp only []
    rw [hexA, if_pos rfl]
    rw [shutilMove_ok fsA (joinPath fsA.cwd (basename xlsf)) (joinPath fsA.cwd xlsf)
      (.file "") hmf hcwdfile]
  · have hmoved : lookupEntry (movedFS fsA (joinPath fsA.cwd (basename xlsf))
        (joinPath fsA.cwd xlsf) (.file "")).entries (joinPath fsA.cwd xlsf) =
        some (.file "") :=
      lookupEntry_movedFS_dst fsA (joinPath fsA.cwd (basename xlsf))
        (joinPath fsA.cwd xlsf) (.file "")
    have hexM : osExists (movedFS fsA (joinPath fsA.cwd (basename xlsf))
        (joinPath fsA.cwd xlsf) (.file "")) (joinPath fsA.cwd xlsf) = true := by
      unfold osExists; rw [hmoved]; rfl
    have hval : validate_xlsform_file (movedFS fsA (joinPath fsA.cwd (basename xlsf))
        (joinPath fsA.cwd xlsf) (.file "")) xlsf =
        .ok (false, movedFS fsA (joinPath fsA.cwd (basename xlsf))
          (joinPath fsA.cwd xlsf) (.file ""), []) := by
      unfold validate_xlsform_file
      simp only []
      rw [show (movedFS fsA (joinPath fsA.cwd (basename xlsf))
        (joinPath fsA.cwd xlsf) (Entry.file "")).cwd = fsA.cwd from rfl]
      rw [hexM, if_pos rfl]
      simp [osGetsize, hmoved]
    unfold convert_xlsx_to_json
    rw [hval]

/-- Witness for C9: a concrete agent run that leaves an empty `f.xlsx` in the
working directory; the location stage succeeds and the conversion stage
rejects the empty artifact before posting. -/
theorem C9_empty_artifact_passes_witness :
    create_xlsform fsC9 "output_files/f.xlsx" (fun _ => .ok fsC9A) =
      (true, movedFS fsC9A (joinPath fsC9A.cwd (basename "output_files/f.xlsx"))
        (joinPath fsC9A.cwd "output_files/f.xlsx") (.file ""), []) ∧
    convert_xlsx_to_json
        (movedFS fsC9A (joinPath fsC9A.cwd (basename "output_files/f.xlsx"))
          (joinPath fsC9A.cwd "output_files/f.xlsx") (.file ""))
        "output_files/f.xlsx" "output_files/r.json" .timeout =
      .ok (none, movedFS fsC9A (joinPath fsC9A.cwd (basename "output_files/f.xlsx"))
        (joinPath fsC9A.cwd "output_files/f.xlsx") (.file ""), []) :=
  C9_empty_artifact_passes fsC9 fsC9A "output_files/f.xlsx" "output_files/r.json"
    (fun _ => .ok fsC9A) .timeout rfl (by decide) rfl

/-- When no probe of the searched locations hits an entry, the search loop of
`create_xlsform` finds nothing. -/
theorem createSearch_none {fs : FS} {simple expected : String} {l : List String}
    (hprobe : ∀ q, lookupEntry fs.entries (joinPath q simple) = none) :
    createSearch fs simple expected l = none := by
  induction l with
  | nil => rfl
  | cons sp rest ih =>
    unfold createSearch
    have hex : osExists fs (joinPath sp simple) = false := by
      unfold osExists; rw [hprobe]; rfl
    rw [hex, if_neg Bool.false_ne_true]
    exact ih

/-- When the agent has left a file with the expected basename in the current
working directory, `create_xlsform` moves it to the canonical path and
reports success without inspecting its size. -/
theorem create_xlsform_cwd_move {fs0 fsA : FS} {xlsf : String}
    {agent : FS → AgentResult} {e : Entry}
    (hagent : agent fs0 = .ok fsA)
    (hcwdfile : lookupEntry fsA.entries (joinPath fsA.cwd (basename xlsf)) = some e)
    (hmf : fsA.moveFails (joinPath fsA.cwd (basename xlsf)) = false) :
    create_xlsform fs0 xlsf agent =
      (true, movedFS fsA (joinPath fsA.cwd (basename xlsf))
        (joinPath fsA.cwd xlsf) e, []) := by
  have hexA : osExists fsA (joinPath fsA.cwd (basename xlsf)) = true := by
    unfold osExists; rw [hcwdfile]; rfl
  unfold create_xlsform
  rw [hagent]
  unfold create_xlsform_post
  simp only []
  rw [hexA, if_pos rfl]
  rw [shutilMove_ok fsA (joinPath fsA.cwd (basename xlsf)) (joinPath fsA.cwd xlsf)
    e hmf hcwdfile]

/-- C6: when the agent produces no file at any location searched by
`create_xlsform`, the pipeline fails with the artifact-unavailable error and
never contacts the conversion service: the event trace is empty, so no
`httpPost` event occurs. -/
theorem C6_no_artifact_no_post (fs0 fsA : FS) (ts1 ts2 prompt : String)
    (agent : FS → AgentResult) (http : HttpOutcome)
    (hprompt : lookupEntry (ensure_output_directory fs0).entries
      (joinPath (ensure_output_directory fs0).cwd "xlsform_prompt.txt") =
        some (.file prompt))
    (hagent : agent (ensure_output_directory fs0) = .ok fsA)
    (hnone : ∀ d ∈ fsA.entries, probeSuffix d.1
      (basename (generate_timestamped_filename "xlsform_survey" ".xlsx" ts1)) = false) :
    generate_form_json fs0 ts1 ts2 agent http =
      (.error "Failed to create XLSForm", fsA, []) := by
  have hprobe : ∀ q, lookupEntry fsA.entries (joinPath q
      (basename (generate_timestamped_filename "xlsform_survey" ".xlsx" ts1))) = none :=
    fun q => lookupEntry_probe_none2 hnone (probeSuffix_joinPath q _)
  have hcreate : create_xlsform (ensure_output_directory fs0)
      (generate_timestamped_filename "xlsform_survey" ".xlsx" ts1) agent =
      (false, fsA, []) := by
    unfold create_xlsform
    rw [hagent]
    unfold create_xlsform_post
    simp only []
    have hcwd : osExists fsA (joinPath fsA.cwd
        (basename (generate_timestamped_filename "xlsform_survey" ".xlsx" ts1))) =
        false := by
      unfold osExists; rw [hprobe]; rfl
    rw [hcwd, if_neg Bool.false_ne_true]
    rw [createSearch_none hprobe]
  unfold generate_form_json
  simp only []
  rw [hprompt]
  rw [hcreate]

/-- Witness for C6: a do-nothing agent on a concrete filesystem; the pipeline
raises the artifact error with an empty event trace. -/
theorem C6_no_artifact_no_post_witness :
    generate_form_json fsC6base "20250101_120000" "20250101_120001"
        (fun f => .ok f) .timeout =
      (.error "Failed to create XLSForm", ensure_output_directory fsC6base, []) :=
  C6_no_artifact_no_post fsC6base (ensure_output_directory fsC6base)
    "20250101_120000" "20250101_120001" "P" (fun f => .ok f) .timeout
    (by decide) rfl (by decide)

/-- Counterexample to C7: the two canonical filenames are produced by two
separate clock reads (lines 363 and 364), so a successful run whose reads
straddle a second boundary yields a non-null result and two files whose
timestamp suffixes differ - the artifact carries the first read and the
result file the second, refuting the claim that both names always carry the
same timestamp of the run. -/
theorem C7_counterexample :
    (generate_form_json fsC7 "20250101_120000" "20250101_120001" c7agent
        (.resp ⟨200, "[1]", "H"⟩)).1 = .ok "[1]" ∧
    lookupEntry (generate_form_json fsC7 "20250101_120000" "20250101_120001" c7agent
        (.resp ⟨200, "[1]", "H"⟩)).2.1.entries
      "/work/output_files/xlsform_survey_20250101_120000.xlsx" = some (.file "X") ∧
    lookupEntry (generate_form_json fsC7 "20250101_120000" "20250101_120001" c7agent
        (.resp ⟨200, "[1]", "H"⟩)).2.1.entries
      "/work/output_files/form_result_20250101_120001.json" = some (.file "[1]") ∧
    ("20250101_120000" : String) ≠ "20250101_120001" := by
  refine ⟨rfl, by decide, by decide, by decide⟩

/-- C7 amended: a healthy run returns the conversion body and writes exactly
the artifact file and the result file into the output directory; the artifact
name carries the first clock read and the result name the second, so the two
names carry the same timestamp suffix whenever both consecutive reads fall in
the same second - as stated here, where both reads are `ts`. -/
theorem C7_success_two_files (fs0 fsA fs2 : FS) (ts prompt c body hdrs : String)
    (agent : FS → AgentResult)
    (hprompt : lookupEntry (ensure_output_directory fs0).entries
      (joinPath (ensure_output_directory fs0).cwd "xlsform_prompt.txt") =
        some (.file prompt))
    (hagent : agent (ensure_output_directory fs0) = .ok fsA)
    (hartifact : lookupEntry fsA.entries (joinPath fsA.cwd
      (basename (generate_timestamped_filename "xlsform_survey" ".xlsx" ts))) =
        some (.file c))
    (hc : 0 < c.length)
    (hmf : fsA.moveFails (joinPath fsA.cwd
      (basename (generate_timestamped_filename "xlsform_survey" ".xlsx" ts))) = false)
    (hbody : strStarts (pyStrip body) "\x7b" = true ∨ strStarts (pyStrip body) "[" = true)
    (hw : writeFile (movedFS fsA (joinPath fsA.cwd
        (basename (generate_timestamped_filename "xlsform_survey" ".xlsx" ts)))
        (joinPath fsA.cwd (generate_timestamped_filename "xlsform_survey" ".xlsx" ts))
        (.file c))
      (joinPath fsA.cwd (generate_timestamped_filename "form_result" ".json" ts))
      body = .ok fs2)
    (hne : ¬(joinPath fsA.cwd (generate_timestamped_filename "form_result" ".json" ts) =
      joinPath fsA.cwd (generate_timestamped_filename "xlsform_survey" ".xlsx" ts))) :
    generate_form_json fs0 ts ts agent (.resp ⟨200, body, hdrs⟩) =
      (.ok body, fs2, [.httpPost]) ∧
    lookupEntry fs2.entries
      (joinPath fsA.cwd (generate_timestamped_filename "xlsform_survey" ".xlsx" ts)) =
        some (.file c) ∧
    lookupEntry fs2.entries
      (joinPath fsA.cwd (generate_timestamped_filename "form_result" ".json" ts)) =
        some (.file body) := by
  have hcreate := create_xlsform_cwd_move hagent hartifact hmf
  have hmoved := lookupEntry_movedFS_dst fsA
    (joinPath fsA.cwd (basename (generate_timestamped_filename "xlsform_survey" ".xlsx" ts)))
    (joinPath fsA.cwd (generate_timestamped_filename "xlsform_survey" ".xlsx" ts))
    (.file c)
  have hconv := @convert_ok_of_valid
    (movedFS fsA
      (joinPath fsA.cwd (basename (generate_timestamped_filename "xlsform_survey" ".xlsx" ts)))
      (joinPath fsA.cwd (generate_timestamped_filename "xlsform_survey" ".xlsx" ts))
      (.file c))
    fs2
    (generate_timestamped_filename "xlsform_survey" ".xlsx" ts)
    (generate_timestamped_filename "form_result" ".json" ts)
    c body hdrs hmoved hc hbody hw
  have hinv := writeFile_ok_inv hw
  refine ⟨?_, ?_, ?_⟩
  · unfold generate_form_json
    simp only []
    rw [hprompt, hcreate]
    simp only []
    rw [hconv]
    rfl
  · rw [hinv]
    rw [lookupEntry_cons]
    simp only [beq_iff_eq]
    rw [if_neg hne]
    rw [lookupEntry_removeEntry_ne (fun hh => hne hh.symm)]
    exact hmoved
  · rw [hinv]
    rw [lookupEntry_cons]
    simp

/-- Witness for the amended C7: a concrete healthy run whose two clock reads
coincide; the run succeeds and both files carry the same timestamp suffix. -/
theorem C7_success_two_files_witness :
    generate_form_json fsC7 "20250101_120000" "20250101_120000" c7agent
        (.resp ⟨200, "[1]", "H"⟩) =
      (.ok "[1]", c7fs2, [.httpPost]) ∧
    lookupEntry c7fs2.entries
      (joinPath fsC7A.cwd
        (generate_timestamped_filename "xlsform_survey" ".xlsx" "20250101_120000")) =
        some (.file "X") ∧
    lookupEntry c7fs2.entries
      (joinPath fsC7A.cwd
        (generate_timestamped_filename "form_result" ".json" "20250101_120000")) =
        some (.file "[1]") :=
  C7_success_two_files fsC7 fsC7A c7fs2 "20250101_120000" "P" "X" "[1]" "H" c7agent
    (by decide) rfl (by decide) (by decide) rfl (Or.inr (by decide)) rfl (by decide)

/-- Counterexample to C10: a POST body parsing to the JSON number 5 is valid
JSON that lacks the `query` key, yet the handler does not return 400: the
membership test `'query' not in data` raises a `TypeError`, which the broad
handler maps to a 500 response (the core pipeline is still not invoked). -/
theorem C10_counterexample :
    (generate_form (.parsed (.jnum 5)) (fun _ => .ok "r") "m").1 ≠ 400 ∧
    (generate_form (.parsed (.jnum 5)) (fun _ => .ok "r") "m").1 = 500 ∧
    (generate_form (.parsed (.jnum 5)) (fun _ => .ok "r") "m").2.2 = false := by
  refine ⟨by decide, by decide, by decide⟩

/-- C10 amended: for every POST body that parses to a falsy JSON document, or
to a container in which the membership test for `query` succeeds and is
negative (an object without the key, an array without the string element, a
string without the substring), the endpoint returns 400 with the
missing-query body and the core pipeline is not invoked; a body that fails to
parse yields 500 via the broad handler, also without invoking the core. -/
theorem C10_missing_query (data : JsonVal) (core : JsonVal → Except String String)
    (parseMsg : String)
    (h : truthy data = false ∨ queryMem data = .ok false) :
    generate_form (.parsed data) core parseMsg = missing_query_response ∧
    generate_form .invalid core parseMsg =
      (500, .jobj [("success", .jbool false), ("error", .jstr parseMsg)], false) := by
  constructor
  · show (if (!truthy data) = true then missing_query_response
      else match queryMem data with
        | .error e =>
          (500, .jobj [("success", .jbool false), ("error", .jstr e)], false)
        | .ok false => missing_query_response
        | .ok true =>
          match itemQuery data with
          | .error e =>
            (500, .jobj [("success", .jbool false), ("error", .jstr e)], false)
          | .ok q =>
            match core q with
            | .ok result =>
              (200, .jobj [("success", .jbool true), ("data", .jstr result)], true)
            | .error e =>
              (500, .jobj [("success", .jbool false), ("error", .jstr e)], true)) =
      missing_query_response
    rcases h with hf | hq
    · rw [hf]
      rfl
    · cases htr : truthy data with
      | false => rfl
      | true => simp [hq]
  · rfl

/-- Witness for the amended C10: a concrete JSON object without the `query`
key receives the 400 missing-query response and the core stays uninvoked. -/
theorem C10_missing_query_witness :
    generate_form (.parsed (.jobj [("a", .jnum 1)])) (fun _ => .ok "r") "m" =
      missing_query_response ∧
    generate_form .invalid (fun _ => .ok "r") "m" =
      (500, .jobj [("success", .jbool false), ("error", .jstr "m")], false) :=
  C10_missing_query (.jobj [("a", .jnum 1)]) (fun _ => .ok "r") "m" (Or.inr rfl)

end FormConv
